import Mathlib

/-!
Verification development for the Minipm backend (`src/backend/server.py`).

The Python source is shallowly embedded below: each MongoDB collection is a
Lean list of records, `find_one` is `List.find?`, `count_documents` is the
length of a `List.filter`, `update_one` / `delete_one` act on the first
matching record (as in MongoDB), and `insert_one` appends to the end of the
collection.  Mutations return, besides the new store, the list of events they
broadcast to the subscription manager and the list of store writes they
issued.  Exceptions raised by the Python resolvers are modelled with
`Except Err`.
-/

deriving instance DecidableEq for Except

namespace Minipm

/-- A user document (collection `users`), as seen by resolvers after the
password projection: `id`, `email`, `name`, `created_at`. -/
structure UserRec where
  id : String
  email : String
  name : String
  created_at : String
deriving DecidableEq, Repr

/-- An organization document (collection `organizations`): owner is `user_id`. -/
structure OrgRec where
  id : String
  user_id : String
  name : String
  slug : String
  contact_email : String
  created_at : String
deriving DecidableEq, Repr

/-- A project document (collection `projects`). -/
structure ProjectRec where
  id : String
  organization_id : String
  name : String
  description : String
  status : String
  due_date : Option String
  created_at : String
deriving DecidableEq, Repr

/-- A task document (collection `tasks`). -/
structure TaskRec where
  id : String
  project_id : String
  title : String
  description : String
  status : String
  assignee_email : String
  due_date : Option String
  created_at : String
deriving DecidableEq, Repr

/-- A task comment document (collection `task_comments`). -/
structure CommentRec where
  id : String
  task_id : String
  content : String
  author_email : String
  created_at : String
deriving DecidableEq, Repr

/-- The entity store: the four MongoDB collections used by the resolvers. -/
structure Store where
  organizations : List OrgRec
  projects : List ProjectRec
  tasks : List TaskRec
  task_comments : List CommentRec
deriving DecidableEq, Repr

/-- The exceptions raised by the resolvers in `server.py`, by message. -/
inductive Err where
  | notAuthenticated
  | notFound (what : String)
  | accessDenied
deriving DecidableEq, Repr

/-- Embeds `db.organizations.find_one({"id": orgId, "user_id": userId})` — the
combined id/owner filter the source uses for every organization access. -/
def findOrgOwned (s : Store) (orgId userId : String) : Option OrgRec :=
  s.organizations.find? (fun o => o.id == orgId && o.user_id == userId)

/-- A project enriched with `task_count` and `completed_tasks`. -/
structure ProjectOut where
  record : ProjectRec
  task_count : Nat
  completed_tasks : Nat
deriving DecidableEq, Repr

/-- Enrich a project as `Query.projects` / `Query.project` do: count tasks of
the project and the subset with `status == "DONE"`. -/
def enrichProject (s : Store) (p : ProjectRec) : ProjectOut :=
  { record := p
    task_count := (s.tasks.filter (fun t => t.project_id == p.id)).length
    completed_tasks :=
      (s.tasks.filter (fun t => t.project_id == p.id && t.status == "DONE")).length }

/-- Embeds `Query.organization`: `find_one({"id": id, "user_id": user["id"]})`;
returns the organization, or `None` when the filter matches nothing. -/
def Query.organization (user : Option UserRec) (id : String) (s : Store) :
    Except Err (Option OrgRec) :=
  match user with
  | none => .error .notAuthenticated
  | some u => .ok (findOrgOwned s id u.id)

/-- Embeds `Query.projects`: verifies the organization with the combined id/owner
filter (raising "Organization not found" on a miss), then lists the
organization's projects with task counts. -/
def Query.projects (user : Option UserRec) (organization_id : String) (s : Store) :
    Except Err (List ProjectOut) :=
  match user with
  | none => .error .notAuthenticated
  | some u =>
    match findOrgOwned s organization_id u.id with
    | none => .error (.notFound "Organization")
    | some _ =>
      .ok ((s.projects.filter (fun p => p.organization_id == organization_id)).map
        (enrichProject s))

/-- Embeds `Query.task_comments`: returns every comment with the given `task_id`.
The source performs no ownership-chain check here. -/
def Query.task_comments (user : Option UserRec) (task_id : String) (s : Store) :
    Except Err (List CommentRec) :=
  match user with
  | none => .error .notAuthenticated
  | some _ => .ok (s.task_comments.filter (fun c => c.task_id == task_id))

/-- An event handed to `subscription_manager.broadcast(org_id, event_type, data)`;
`data` is the payload dict, modelled as an association list. -/
structure Event where
  org_id : String
  event_type : String
  data : List (String × String)
deriving DecidableEq, Repr

/-- A write issued to the entity store, tagged with the collection name. -/
inductive WriteOp where
  | insertOne (collection : String)
  | updateOne (collection : String)
  | deleteOne (collection : String)
  | deleteMany (collection : String)
deriving DecidableEq, Repr

/-- The outcome of a successful mutation: the new store, the events it
broadcast, the writes it issued, and its return value. -/
structure MutOut (α : Type) where
  store : Store
  events : List Event
  writes : List WriteOp
  result : α
deriving DecidableEq, Repr

/-- Apply `f` to the first list element satisfying `p`, like a MongoDB
`update_one`. -/
def updateFirstBy {α : Type} (p : α → Bool) (f : α → α) : List α → List α
  | [] => []
  | x :: rest => if p x then f x :: rest else x :: updateFirstBy p f rest

/-- Drop the first list element satisfying `p`, like a MongoDB `delete_one`. -/
def removeFirstBy {α : Type} (p : α → Bool) : List α → List α
  | [] => []
  | x :: rest => if p x then rest else x :: removeFirstBy p rest

/-- Embeds `ProjectInput` from the source, with its defaults. -/
structure ProjectInput where
  organization_id : String
  name : String
  description : String := ""
  status : String := "ACTIVE"
  due_date : Option String := none
deriving DecidableEq, Repr

/-- Embeds `ProjectUpdateInput`: absent fields are `none`. -/
structure ProjectUpdateInput where
  name : Option String := none
  description : Option String := none
  status : Option String := none
  due_date : Option String := none
deriving DecidableEq, Repr

/-- Embeds `TaskInput` from the source, with its defaults. -/
structure TaskInput where
  project_id : String
  title : String
  description : String := ""
  status : String := "TODO"
  assignee_email : String := ""
  due_date : Option String := none
deriving DecidableEq, Repr

/-- Embeds `TaskUpdateInput`: absent fields are `none`. -/
structure TaskUpdateInput where
  title : Option String := none
  description : Option String := none
  status : Option String := none
  assignee_email : Option String := none
  due_date : Option String := none
deriving DecidableEq, Repr

/-- Embeds `TaskCommentInput` from the source. -/
structure TaskCommentInput where
  task_id : String
  content : String
deriving DecidableEq, Repr

/-- The `$set` patch of `update_project`, applied to a project record: each
field present in the input overwrites the stored one; absent fields keep the
stored value (the source only adds present fields to `update_data`). -/
def applyProjectUpdate (input : ProjectUpdateInput) (p : ProjectRec) : ProjectRec :=
  { p with
    name := input.name.getD p.name
    description := input.description.getD p.description
    status := input.status.getD p.status
    due_date := match input.due_date with | none => p.due_date | some d => some d }

/-- Whether `update_project`'s `update_data` dict is non-empty, i.e. whether
the source calls `update_one` at all. -/
def projectUpdateNonempty (input : ProjectUpdateInput) : Bool :=
  input.name.isSome || input.description.isSome || input.status.isSome ||
    input.due_date.isSome

/-- The `$set` patch of `update_task`, applied to a task record. -/
def applyTaskUpdate (input : TaskUpdateInput) (t : TaskRec) : TaskRec :=
  { t with
    title := input.title.getD t.title
    description := input.description.getD t.description
    status := input.status.getD t.status
    assignee_email := input.assignee_email.getD t.assignee_email
    due_date := match input.due_date with | none => t.due_date | some d => some d }

/-- Whether `update_task`'s `update_data` dict is non-empty. -/
def taskUpdateNonempty (input : TaskUpdateInput) : Bool :=
  input.title.isSome || input.description.isSome || input.status.isSome ||
    input.assignee_email.isSome || input.due_date.isSome

/-- Embeds `Mutation.create_project`.  `proj_id` and `now` stand for the freshly
generated uuid and UTC timestamp. -/
def Mutation.create_project (user : Option UserRec) (input : ProjectInput)
    (proj_id now : String) (s : Store) : Except Err (MutOut ProjectRec) :=
  match user with
  | none => .error .notAuthenticated
  | some u =>
    match findOrgOwned s input.organization_id u.id with
    | none => .error (.notFound "Organization")
    | some _ =>
      let doc : ProjectRec :=
        { id := proj_id, organization_id := input.organization_id
          name := input.name, description := input.description
          status := input.status, due_date := input.due_date, created_at := now }
      .ok { store := { s with projects := s.projects ++ [doc] }
            events := [⟨input.organization_id, "PROJECT_CREATED", [("id", proj_id)]⟩]
            writes := [.insertOne "projects"]
            result := doc }

/-- The store after `update_project`'s conditional `update_one`: the first
project with the given id is patched when `update_data` is non-empty,
otherwise the store is untouched. -/
def projectUpdateStore (id : String) (input : ProjectUpdateInput) (s : Store) : Store :=
  if projectUpdateNonempty input then
    { s with projects :=
        updateFirstBy (fun p => p.id == id) (applyProjectUpdate input) s.projects }
  else s

/-- Embeds `Mutation.update_project`: partial update; `update_one` is only issued
when `update_data` is non-empty; the event is broadcast in either case. -/
def Mutation.update_project (user : Option UserRec) (id : String)
    (input : ProjectUpdateInput) (s : Store) : Except Err (MutOut ProjectOut) :=
  match user with
  | none => .error .notAuthenticated
  | some u =>
    match s.projects.find? (fun p => p.id == id) with
    | none => .error (.notFound "Project")
    | some proj =>
      match findOrgOwned s proj.organization_id u.id with
      | none => .error .accessDenied
      | some _ =>
        match (projectUpdateStore id input s).projects.find? (fun p => p.id == id) with
        | none => .error (.notFound "Project")
        | some updated =>
          .ok { store := projectUpdateStore id input s
                events := [⟨proj.organization_id, "PROJECT_UPDATED", [("id", id)]⟩]
                writes := if projectUpdateNonempty input then [.updateOne "projects"] else []
                result := enrichProject (projectUpdateStore id input s) updated }

/-- Embeds `Mutation.delete_project`: cascade delete.  The source collects the ids of
the project's tasks with `find(...).to_list(1000)` — capped at 1000 — deletes
the comments of those tasks, then deletes all the project's tasks and the
project itself. -/
def Mutation.delete_project (user : Option UserRec) (id : String) (s : Store) :
    Except Err (MutOut Bool) :=
  match user with
  | none => .error .notAuthenticated
  | some u =>
    match s.projects.find? (fun p => p.id == id) with
    | none => .error (.notFound "Project")
    | some proj =>
      match findOrgOwned s proj.organization_id u.id with
      | none => .error .accessDenied
      | some _ =>
        let task_ids := ((s.tasks.filter (fun t => t.project_id == id)).take 1000).map (·.id)
        let s1 := { s with task_comments :=
            s.task_comments.filter (fun c => !(task_ids.contains c.task_id)) }
        let s2 := { s1 with tasks := s1.tasks.filter (fun t => !(t.project_id == id)) }
        let s3 := { s2 with projects := removeFirstBy (fun p => p.id == id) s2.projects }
        .ok { store := s3
              events := [⟨proj.organization_id, "PROJECT_DELETED", [("id", id)]⟩]
              writes := [.deleteMany "task_comments", .deleteMany "tasks", .deleteOne "projects"]
              result := true }

/-- Embeds `Mutation.create_task`: resolves the project by id alone ("Project not
found" on a miss), then the organization with the combined filter ("Access
denied" on a miss), inserts and broadcasts. -/
def Mutation.create_task (user : Option UserRec) (input : TaskInput)
    (task_id now : String) (s : Store) : Except Err (MutOut TaskRec) :=
  match user with
  | none => .error .notAuthenticated
  | some u =>
    match s.projects.find? (fun p => p.id == input.project_id) with
    | none => .error (.notFound "Project")
    | some proj =>
      match findOrgOwned s proj.organization_id u.id with
      | none => .error .accessDenied
      | some _ =>
        let doc : TaskRec :=
          { id := task_id, project_id := input.project_id
            title := input.title, description := input.description
            status := input.status, assignee_email := input.assignee_email
            due_date := input.due_date, created_at := now }
        .ok { store := { s with tasks := s.tasks ++ [doc] }
              events := [⟨proj.organization_id, "TASK_CREATED",
                [("id", task_id), ("project_id", input.project_id)]⟩]
              writes := [.insertOne "tasks"]
              result := doc }

/-- The store after `update_task`'s conditional `update_one`: the first task
with the given id is patched when `update_data` is non-empty, otherwise the
store is untouched. -/
def taskUpdateStore (id : String) (input : TaskUpdateInput) (s : Store) : Store :=
  if taskUpdateNonempty input then
    { s with tasks := updateFirstBy (fun t => t.id == id) (applyTaskUpdate input) s.tasks }
  else s

/-- Embeds `Mutation.update_task`: partial update of a task; `update_one` is only
issued when `update_data` is non-empty; the event is broadcast either way. -/
def Mutation.update_task (user : Option UserRec) (id : String)
    (input : TaskUpdateInput) (s : Store) : Except Err (MutOut TaskRec) :=
  match user with
  | none => .error .notAuthenticated
  | some u =>
    match s.tasks.find? (fun t => t.id == id) with
    | none => .error (.notFound "Task")
    | some task =>
      match s.projects.find? (fun p => p.id == task.project_id) with
      | none => .error (.notFound "Project")
      | some proj =>
        match findOrgOwned s proj.organization_id u.id with
        | none => .error .accessDenied
        | some _ =>
          match (taskUpdateStore id input s).tasks.find? (fun t => t.id == id) with
          | none => .error (.notFound "Task")
          | some updated =>
            .ok { store := taskUpdateStore id input s
                  events := [⟨proj.organization_id, "TASK_UPDATED",
                    [("id", id), ("project_id", task.project_id)]⟩]
                  writes := if taskUpdateNonempty input then [.updateOne "tasks"] else []
                  result := updated }

/-- Embeds `Mutation.delete_task`: deletes the task's comments, then the task. -/
def Mutation.delete_task (user : Option UserRec) (id : String) (s : Store) :
    Except Err (MutOut Bool) :=
  match user with
  | none => .error .notAuthenticated
  | some u =>
    match s.tasks.find? (fun t => t.id == id) with
    | none => .error (.notFound "Task")
    | some task =>
      match s.projects.find? (fun p => p.id == task.project_id) with
      | none => .error (.notFound "Project")
      | some proj =>
        match findOrgOwned s proj.organization_id u.id with
        | none => .error .accessDenied
        | some _ =>
          let s1 := { s with task_comments :=
              s.task_comments.filter (fun c => !(c.task_id == id)) }
          let s2 := { s1 with tasks := removeFirstBy (fun t => t.id == id) s1.tasks }
          .ok { store := s2
                events := [⟨proj.organization_id, "TASK_DELETED",
                  [("id", id), ("project_id", task.project_id)]⟩]
                writes := [.deleteMany "task_comments", .deleteOne "tasks"]
                result := true }

/-- Embeds `Mutation.add_comment`: resolves task → project → organization, inserts
the comment with `author_email` taken from the caller, and broadcasts a
`COMMENT_ADDED` event whose payload carries `id` and `task_id`. -/
def Mutation.add_comment (user : Option UserRec) (input : TaskCommentInput)
    (comment_id now : String) (s : Store) : Except Err (MutOut CommentRec) :=
  match user with
  | none => .error .notAuthenticated
  | some u =>
    match s.tasks.find? (fun t => t.id == input.task_id) with
    | none => .error (.notFound "Task")
    | some task =>
      match s.projects.find? (fun p => p.id == task.project_id) with
      | none => .error (.notFound "Project")
      | some proj =>
        match findOrgOwned s proj.organization_id u.id with
        | none => .error .accessDenied
        | some _ =>
          let doc : CommentRec :=
            { id := comment_id, task_id := input.task_id
              content := input.content, author_email := u.email, created_at := now }
          .ok { store := { s with task_comments := s.task_comments ++ [doc] }
                events := [⟨proj.organization_id, "COMMENT_ADDED",
                  [("id", comment_id), ("task_id", input.task_id)]⟩]
                writes := [.insertOne "task_comments"]
                result := doc }

/-- Embeds `Mutation.delete_comment`: author-only check (not organization ownership),
deletes the comment, and broadcasts nothing. -/
def Mutation.delete_comment (user : Option UserRec) (id : String) (s : Store) :
    Except Err (MutOut Bool) :=
  match user with
  | none => .error .notAuthenticated
  | some u =>
    match s.task_comments.find? (fun c => c.id == id) with
    | none => .error (.notFound "Comment")
    | some comment =>
      if comment.author_email != u.email then .error .accessDenied
      else
        let s1 := { s with task_comments := removeFirstBy (fun c => c.id == id) s.task_comments }
        .ok { store := s1
              events := []
              writes := [.deleteOne "task_comments"]
              result := true }

/-- A queued subscription event, as put by `broadcast`:
`{"type": event_type, "data": data}`. -/
abbrev QEvent := String × List (String × String)

/-- Embeds `SubscriptionManager` state.  `connections` is the dict
`org_id → list of queues`; queues are identified by the `Nat` token handed out
at `subscribe` time (standing for Python object identity), and `queues` maps
each token to the events it currently holds (FIFO, appended at the end).
`nextId` supplies fresh tokens. -/
structure Hub where
  connections : List (String × List Nat)
  queues : List (Nat × List QEvent)
  nextId : Nat
deriving DecidableEq, Repr

/-- Apply `f` to the value of the first entry with the given key. -/
def updAssoc {α β : Type} [BEq α] (xs : List (α × β)) (k : α) (f : β → β) :
    List (α × β) :=
  match xs with
  | [] => []
  | (a, b) :: rest => if a == k then (a, f b) :: rest else (a, b) :: updAssoc rest k f

/-- Embeds `list.remove(x)`: drop the first occurrence of `x`, or `none` when `x` is
absent (Python raises `ValueError` there). -/
def removeFirst (xs : List Nat) (q : Nat) : Option (List Nat) :=
  match xs with
  | [] => none
  | x :: rest => if x = q then some rest else (removeFirst rest q).map (x :: ·)

/-- Embeds `SubscriptionManager.broadcast(org_id, event_type, data)`: when the org id
is a key of `connections`, put the event on every queue in its list; otherwise
do nothing. -/
def Hub.broadcast (h : Hub) (org_id event_type : String)
    (data : List (String × String)) : Hub :=
  match h.connections.lookup org_id with
  | none => h
  | some chans =>
    { h with queues :=
        chans.foldl (fun qs n => updAssoc qs n (fun queue => queue ++ [(event_type, data)])) h.queues }

/-- Embeds `SubscriptionManager.subscribe(org_id)`: ensure the org has an entry,
create a fresh empty queue, append it to the org's list, and return it. -/
def Hub.subscribe (h : Hub) (org_id : String) : Nat × Hub :=
  let conns := match h.connections.lookup org_id with
    | none => h.connections ++ [(org_id, [])]
    | some _ => h.connections
  let q := h.nextId
  (q, { connections := updAssoc conns org_id (fun chans => chans ++ [q])
        queues := h.queues ++ [(q, [])]
        nextId := h.nextId + 1 })

/-- Embeds `SubscriptionManager.unsubscribe(org_id, queue)`: a no-op when the org id
is not a key of `connections`; otherwise `list.remove`, which raises
`ValueError` when the queue is no longer in the list. -/
def Hub.unsubscribe (h : Hub) (org_id : String) (q : Nat) : Except String Hub :=
  match h.connections.lookup org_id with
  | none => .ok h
  | some chans =>
    match removeFirst chans q with
    | none => .error "ValueError: list.remove"
    | some chans2 =>
      .ok { h with connections := updAssoc h.connections org_id (fun _ => chans2) }

/-- Round a rational to the nearest integer, ties to even — the IEEE-754 and
CPython tie rule. -/
def rne (q : ℚ) : ℤ :=
  if q - (⌊q⌋ : ℚ) < 1/2 then ⌊q⌋
  else if (1 : ℚ)/2 < q - (⌊q⌋ : ℚ) then ⌊q⌋ + 1
  else if ⌊q⌋ % 2 = 0 then ⌊q⌋ else ⌊q⌋ + 1

/-- Two to an integer power, as an exact rational. -/
def pow2 (k : ℤ) : ℚ :=
  if 0 ≤ k then ((2 ^ k.toNat : ℕ) : ℚ) else 1 / ((2 ^ (-k).toNat : ℕ) : ℚ)

/-- Number of halvings bringing a rational with `1 ≤ q` below 2, i.e.
⌊log2 q⌋; fuel-driven so that it evaluates inside the kernel. -/
def flog2Down (fuel : Nat) (q : ℚ) : Nat :=
  match fuel with
  | 0 => 0
  | fuel + 1 => if 2 ≤ q then flog2Down fuel (q / 2) + 1 else 0

/-- Number of doublings bringing a rational with `0 < q < 1` up to at least
1, i.e. -⌊log2 q⌋; fuel-driven. -/
def flog2Up (fuel : Nat) (q : ℚ) : Nat :=
  match fuel with
  | 0 => 0
  | fuel + 1 => if q < 1 then flog2Up fuel (q * 2) + 1 else 0

/-- The binary exponent ⌊log2 q⌋ of a positive rational. -/
def qlog2 (q : ℚ) : ℤ :=
  if 1 ≤ q then (flog2Down (q.num.natAbs + 64) q : ℤ)
  else -(flog2Up (q.den + 64) q : ℤ)

/-- The binary64 (IEEE-754 double) value nearest to a positive rational,
ties to even: the 53-bit significand obtained by scaling into
[2^52, 2^53) and rounding, times the binary exponent. -/
def fl64pos (q : ℚ) : ℚ :=
  ((rne (q * pow2 (52 - qlog2 q)) : ℤ) : ℚ) * pow2 (qlog2 q - 52)

/-- The binary64 value nearest to a rational (normal range; subnormal
underflow and overflow do not arise for the magnitudes in this program). -/
def fl64 (q : ℚ) : ℚ :=
  if q = 0 then 0 else if q < 0 then -(fl64pos (-q)) else fl64pos q

/-- Embeds Python's int/int true division `completed_tasks / total_tasks`:
the correctly rounded binary64 quotient. -/
def pyDiv (c t : Nat) : ℚ := fl64 ((c : ℚ) / (t : ℚ))

/-- Binary64 multiplication: the correctly rounded product. -/
def pyMul (x y : ℚ) : ℚ := fl64 (x * y)

/-- Embeds CPython `round(x, 1)` on a float: the exact value of x rounded to
one decimal place with ties to even, converted back to the nearest binary64
(CPython `double_round` via dtoa/strtod). -/
def pyRound1 (x : ℚ) : ℚ := fl64 ((rne (10 * x) : ℚ) / 10)

/-- From the claim's words, not from the source: "100 × completed/total
rounded to one decimal place" read as exact rational rounding (Mathlib
`round`, half away from zero at ties).  Compared against the source's float
pipeline in the C8 counterexample. -/
def specRound1 (q : ℚ) : ℚ := ((round (10 * q) : ℤ) : ℚ) / 10

/-- The `ProjectStats` result type; `completion_rate` holds the exact value
of the binary64 the source computes, as a rational. -/
structure ProjectStats where
  total_projects : Nat
  active_projects : Nat
  completed_projects : Nat
  on_hold_projects : Nat
  total_tasks : Nat
  completed_tasks : Nat
  completion_rate : ℚ
deriving DecidableEq, Repr

/-- The ids of the organization's projects, as `project_stats` collects them. -/
def statsProjectIds (organization_id : String) (s : Store) : List String :=
  (s.projects.filter (fun p => p.organization_id == organization_id)).map (fun p => p.id)

/-- Embeds `total_tasks` of `project_stats`: tasks whose `project_id` is among the
organization's project ids; `0` without a store query when the id list is
empty. -/
def statsTotalTasks (organization_id : String) (s : Store) : Nat :=
  if (statsProjectIds organization_id s).isEmpty then 0
  else (s.tasks.filter
    (fun t => (statsProjectIds organization_id s).contains t.project_id)).length

/-- Embeds `completed_tasks` of `project_stats`: the subset of the counted tasks
with `status == "DONE"`. -/
def statsCompletedTasks (organization_id : String) (s : Store) : Nat :=
  if (statsProjectIds organization_id s).isEmpty then 0
  else (s.tasks.filter
    (fun t => (statsProjectIds organization_id s).contains t.project_id
      && t.status == "DONE")).length

/-- The statistics block of `Query.project_stats`: counts projects by status,
collects the organization's project ids, counts tasks whose `project_id` lies
in that set (skipping the store queries when the id list is empty, as the
source's `if project_ids else 0` does), and computes the completion rate in
the source's binary double arithmetic — `completed_tasks / total_tasks * 100`
when there are tasks, the int `0` otherwise, passed through `round(x, 1)`
(`round(0, 1)` is exactly `0`, folded into the else branch here). -/
def computeStats (organization_id : String) (s : Store) : ProjectStats :=
  { total_projects := (s.projects.filter
      (fun p => p.organization_id == organization_id)).length
    active_projects := (s.projects.filter
      (fun p => p.organization_id == organization_id && p.status == "ACTIVE")).length
    completed_projects := (s.projects.filter
      (fun p => p.organization_id == organization_id && p.status == "COMPLETED")).length
    on_hold_projects := (s.projects.filter
      (fun p => p.organization_id == organization_id && p.status == "ON_HOLD")).length
    total_tasks := statsTotalTasks organization_id s
    completed_tasks := statsCompletedTasks organization_id s
    completion_rate := if 0 < statsTotalTasks organization_id s then
        pyRound1 (pyMul (pyDiv (statsCompletedTasks organization_id s)
          (statsTotalTasks organization_id s)) 100)
      else 0 }

/-- Embeds `Query.project_stats`: authorizes the organization with the combined
id/owner filter, then returns the computed statistics. -/
def Query.project_stats (user : Option UserRec) (organization_id : String)
    (s : Store) : Except Err ProjectStats :=
  match user with
  | none => .error .notAuthenticated
  | some u =>
    match findOrgOwned s organization_id u.id with
    | none => .error (.notFound "Organization")
    | some _ => .ok (computeStats organization_id s)

/-- How the `organization_events` subscription loop can terminate.  The loop
body is `while True: event = await queue.get(); yield ...` wrapped in
`try ... except asyncio.CancelledError`: `cancelled` is the cancellation
signal raised at the `await`, `raisedError` any other exception raised inside
the loop, and `generatorClosed` the transport closing the async generator
(`GeneratorExit`); the `while True` loop has no normal completion of its own. -/
inductive ExitCause where
  | cancelled
  | raisedError
  | generatorClosed
deriving DecidableEq, Repr

/-- The effect of the `organization_events` exit paths on the hub: the only
`except` clause catches `asyncio.CancelledError` and unsubscribes; every other
exit propagates without touching the registry (there is no `finally`). -/
def organization_events_exit (h : Hub) (org_id : String) (q : Nat)
    (c : ExitCause) : Except String Hub :=
  match c with
  | .cancelled => h.unsubscribe org_id q
  | .raisedError => .ok h
  | .generatorClosed => .ok h

/-- One invocation of an entity mutation, with its caller and inputs (fresh
ids and timestamps supplied explicitly, standing for uuid4 / now). -/
inductive MCall where
  | createProject (u : Option UserRec) (input : ProjectInput) (pid now : String)
  | updateProject (u : Option UserRec) (id : String) (input : ProjectUpdateInput)
  | deleteProject (u : Option UserRec) (id : String)
  | createTask (u : Option UserRec) (input : TaskInput) (tid now : String)
  | updateTask (u : Option UserRec) (id : String) (input : TaskUpdateInput)
  | deleteTask (u : Option UserRec) (id : String)
  | addComment (u : Option UserRec) (input : TaskCommentInput) (cid now : String)
  | deleteComment (u : Option UserRec) (id : String)
deriving DecidableEq, Repr

/-- Run one mutation call against a store, keeping the new store and the
events it broadcast. -/
def mutResult (s : Store) (c : MCall) : Except Err (Store × List Event) :=
  match c with
  | .createProject u i pid now => (Mutation.create_project u i pid now s).map (fun o => (o.store, o.events))
  | .updateProject u id i => (Mutation.update_project u id i s).map (fun o => (o.store, o.events))
  | .deleteProject u id => (Mutation.delete_project u id s).map (fun o => (o.store, o.events))
  | .createTask u i tid now => (Mutation.create_task u i tid now s).map (fun o => (o.store, o.events))
  | .updateTask u id i => (Mutation.update_task u id i s).map (fun o => (o.store, o.events))
  | .deleteTask u id => (Mutation.delete_task u id s).map (fun o => (o.store, o.events))
  | .addComment u i cid now => (Mutation.add_comment u i cid now s).map (fun o => (o.store, o.events))
  | .deleteComment u id => (Mutation.delete_comment u id s).map (fun o => (o.store, o.events))

/-- Whether a call is a comment deletion. -/
def isDeleteComment : MCall → Bool
  | .deleteComment _ _ => true
  | _ => false

/-- The organization id a call's ownership chain resolves to, walking the
stored foreign keys upward (project → organization, task → project →
organization); comment deletion resolves no organization. -/
def resolvedOrg (s : Store) (c : MCall) : Option String :=
  match c with
  | .createProject _ i _ _ => some i.organization_id
  | .updateProject _ id _ =>
      (s.projects.find? (fun p => p.id == id)).map (·.organization_id)
  | .deleteProject _ id =>
      (s.projects.find? (fun p => p.id == id)).map (·.organization_id)
  | .createTask _ i _ _ =>
      (s.projects.find? (fun p => p.id == i.project_id)).map (·.organization_id)
  | .updateTask _ id _ =>
      (s.tasks.find? (fun t => t.id == id)).bind (fun t =>
        (s.projects.find? (fun p => p.id == t.project_id)).map (·.organization_id))
  | .deleteTask _ id =>
      (s.tasks.find? (fun t => t.id == id)).bind (fun t =>
        (s.projects.find? (fun p => p.id == t.project_id)).map (·.organization_id))
  | .addComment _ i _ _ =>
      (s.tasks.find? (fun t => t.id == i.task_id)).bind (fun t =>
        (s.projects.find? (fun p => p.id == t.project_id)).map (·.organization_id))
  | .deleteComment _ _ => none

/-- Broadcast a list of events through the hub, in order. -/
def broadcastAll (h : Hub) (evs : List Event) : Hub :=
  evs.foldl (fun a e => a.broadcast e.org_id e.event_type e.data) h

/-- Execute one call: on success install the new store and broadcast the
events; a failed call (a raised exception) leaves store and hub unchanged. -/
def step (sh : Store × Hub) (c : MCall) : Store × Hub :=
  match mutResult sh.1 c with
  | .error _ => sh
  | .ok (s2, evs) => (s2, broadcastAll sh.2 evs)

/-- Execute a list of calls in order. -/
def run (s : Store) (h : Hub) (cs : List MCall) : Store × Hub :=
  cs.foldl step (s, h)

/-- All events broadcast while executing the calls in order (failed calls
broadcast nothing). -/
def publishedEvents (s : Store) (cs : List MCall) : List Event :=
  match cs with
  | [] => []
  | c :: rest =>
    match mutResult s c with
    | .error _ => publishedEvents s rest
    | .ok (s2, evs) => evs ++ publishedEvents s2 rest

/-- The subscriber state the delivery theorem assumes: queue `q` occurs
exactly once in the org's channel list and in no other org's list.  This is
exactly what `subscribe` establishes for a fresh queue. -/
def registeredOnce (conns : List (String × List Nat)) (org : String) (q : Nat) : Bool :=
  (match conns.lookup org with
   | some chans => chans.count q == 1
   | none => false) &&
  conns.all (fun p => p.1 == org || !(p.2.contains q))

/-- A user owning organization `o1`. -/
def userA : UserRec := ⟨"uA", "a@x.com", "Alice", "2024-01-01T00:00:00+00:00"⟩

/-- A second, unrelated user. -/
def userB : UserRec := ⟨"uB", "b@x.com", "Bob", "2024-01-01T00:00:00+00:00"⟩

/-- Organization `o1`, owned by `userA`. -/
def orgA : OrgRec := ⟨"o1", "uA", "Acme", "acme-co", "a@x.com", "2024-01-01T00:00:00+00:00"⟩

/-- Project `p1` under `o1`. -/
def projA : ProjectRec := ⟨"p1", "o1", "Site", "", "ACTIVE", none, "2024-01-01T00:00:00+00:00"⟩

/-- Task `t1` under `p1`. -/
def taskA : TaskRec := ⟨"t1", "p1", "Fix", "", "TODO", "", none, "2024-01-01T00:00:00+00:00"⟩

/-- Comment `c1` on `t1`, authored by `userA`. -/
def commentA : CommentRec := ⟨"c1", "t1", "hi", "a@x.com", "2024-01-01T00:00:00+00:00"⟩

/-- A store with one organization chain: `o1` → `p1` → `t1` → `c1`. -/
def store1 : Store := ⟨[orgA], [projA], [taskA], [commentA]⟩

/-- The `i`-th of many tasks under project `p1`. -/
def mkTask (i : Nat) : TaskRec :=
  ⟨"t" ++ toString i, "p1", "T", "", "TODO", "", none, "2024-01-01T00:00:00+00:00"⟩

/-- A comment on task `t1000`, the 1001st task of `p1`. -/
def orphanComment : CommentRec := ⟨"c9", "t1000", "hi", "a@x.com", "2024-01-01T00:00:00+00:00"⟩

/-- A store where `p1` has 1001 tasks `t0` … `t1000`, and one comment sitting
on `t1000`. -/
def bigStore : Store := ⟨[orgA], [projA], (List.range 1001).map mkTask, [orphanComment]⟩

/-- A hub whose registry has the key `o1` with an empty channel list. -/
def hubOneEmpty : Hub := ⟨[("o1", [])], [(0, [])], 1⟩

/-- A hub with one subscriber, queue `0`, registered on `o1`. -/
def hubOneSub : Hub := ⟨[("o1", [0])], [(0, [])], 1⟩

/-! Association-list and `removeFirst` lemmas. -/

lemma lookup_updAssoc_self {α β : Type} [BEq α] [LawfulBEq α]
    (xs : List (α × β)) (k : α) (f : β → β) :
    (updAssoc xs k f).lookup k = (xs.lookup k).map f := by
  induction xs with
  | nil => rfl
  | cons x rest ih =>
    obtain ⟨a, b⟩ := x
    by_cases hak : a = k
    · subst hak
      simp [updAssoc, List.lookup]
    · have hak2 : (a == k) = false := by simp [hak]
      have hka : (k == a) = false := by
        simp
        exact fun e => hak e.symm
      simp [updAssoc, List.lookup, hak2, hka, ih]

lemma lookup_updAssoc_ne {α β : Type} [BEq α] [LawfulBEq α]
    (xs : List (α × β)) (k k' : α) (f : β → β) (hne : k ≠ k') :
    (updAssoc xs k f).lookup k' = xs.lookup k' := by
  induction xs with
  | nil => rfl
  | cons x rest ih =>
    obtain ⟨a, b⟩ := x
    by_cases hak : a = k
    · subst hak
      have hk : (k' == a) = false := by
        simp
        exact fun e => hne e.symm
      simp [updAssoc, List.lookup, hk]
    · have hak2 : (a == k) = false := by simp [hak]
      simp [updAssoc, List.lookup, hak2, ih]

lemma removeFirst_of_not_mem {xs : List Nat} {q : Nat} (h : q ∉ xs) :
    removeFirst xs q = none := by
  induction xs with
  | nil => rfl
  | cons x rest ih =>
    have hx : x ≠ q := fun e => h (e ▸ List.mem_cons_self x rest)
    have hr : q ∉ rest := fun e => h (List.mem_cons_of_mem x e)
    simp [removeFirst, hx, ih hr]

lemma removeFirst_of_mem {xs : List Nat} {q : Nat} (h : q ∈ xs) :
    ∃ ys, removeFirst xs q = some ys := by
  induction xs with
  | nil => cases h
  | cons x rest ih =>
    by_cases hx : x = q
    · exact ⟨rest, by simp [removeFirst, hx]⟩
    · have hr : q ∈ rest := by
        rcases List.mem_cons.mp h with h1 | h1
        · exact absurd h1.symm hx
        · exact h1
      obtain ⟨ys, hys⟩ := ih hr
      exact ⟨x :: ys, by simp [removeFirst, hx, hys]⟩

lemma removeFirst_count_one {xs : List Nat} {q : Nat} (h : xs.count q = 1) :
    ∃ ys, removeFirst xs q = some ys ∧ q ∉ ys := by
  induction xs with
  | nil => simp at h
  | cons x rest ih =>
    by_cases hx : x = q
    · subst hx
      have : rest.count x = 0 := by
        have := List.count_cons_self x rest
        omega
      exact ⟨rest, by simp [removeFirst], by
        exact fun hm => by simp [List.count_eq_zero.mp this] at hm⟩
    · have hc : rest.count q = 1 := by
        have := List.count_cons q x rest
        simp [hx] at this
        omega
      obtain ⟨ys, hys, hqy⟩ := ih hc
      refine ⟨x :: ys, by simp [removeFirst, hx, hys], ?_⟩
      intro hm
      rcases List.mem_cons.mp hm with h1 | h1
      · exact hx h1.symm
      · exact hqy h1

/-- C1: the `task_comments` query performs no ownership-chain check.  User B,
who does not own organization `o1` (owned by user A), queries the comments of
task `t1` under `o1` and receives the full comment data — the read neither
fails with `AccessDenied` nor with `NotFound`. -/
theorem task_comments_leaks_to_non_owner :
    Query.task_comments (some userB) "t1" store1 = .ok [commentA] ∧
    store1.organizations = [orgA] ∧ orgA.user_id = userA.id ∧ userB.id ≠ userA.id := by
  decide

/-- C2 counterexample: starting from an empty registry, subscribing on `o1`
and unsubscribing once succeeds and leaves the key `o1` with an empty list;
calling `unsubscribe` again for the already-removed channel raises
(`list.remove` on a list not containing the element) instead of completing
without error. -/
theorem unsubscribe_removed_channel_errors :
    (Hub.subscribe ⟨[], [], 0⟩ "o1").2.unsubscribe "o1" 0 = .ok hubOneEmpty ∧
    hubOneEmpty.unsubscribe "o1" 0 = .error "ValueError: list.remove" := by
  decide

/-- C2 amended: `unsubscribe` is a silent no-op when the registry has no
entry for the organization id, and succeeds when the channel is present; but
when the entry exists and the channel has already been removed, it raises a
`ValueError` — removal is not idempotent in that case. -/
theorem unsubscribe_behavior :
    (∀ (h : Hub) (org : String) (q : Nat),
        h.connections.lookup org = none → h.unsubscribe org q = .ok h) ∧
    (∀ (h : Hub) (org : String) (q : Nat) (chans : List Nat),
        h.connections.lookup org = some chans → q ∉ chans →
        h.unsubscribe org q = .error "ValueError: list.remove") ∧
    (∀ (h : Hub) (org : String) (q : Nat) (chans : List Nat),
        h.connections.lookup org = some chans → q ∈ chans →
        ∃ h2, h.unsubscribe org q = .ok h2) := by
  refine ⟨?_, ?_, ?_⟩
  · intro h org q hl
    simp [Hub.unsubscribe, hl]
  · intro h org q chans hl hq
    simp [Hub.unsubscribe, hl, removeFirst_of_not_mem hq]
  · intro h org q chans hl hq
    obtain ⟨ys, hys⟩ := removeFirst_of_mem hq
    refine ⟨{ h with connections := updAssoc h.connections org (fun _ => ys) }, ?_⟩
    simp [Hub.unsubscribe, hl, hys]

/-- C2 witness: the amended statement applied at concrete hubs. -/
theorem unsubscribe_behavior_witness :
    Hub.unsubscribe ⟨[], [], 0⟩ "oX" 5 = .ok ⟨[], [], 0⟩ ∧
    hubOneEmpty.unsubscribe "o1" 3 = .error "ValueError: list.remove" := by
  exact ⟨unsubscribe_behavior.1 ⟨[], [], 0⟩ "oX" 5 rfl,
         unsubscribe_behavior.2.1 hubOneEmpty "o1" 3 [] rfl (by decide)⟩

set_option maxRecDepth 40000 in
/-- C4 (code bug): on a project with 1001 tasks, `delete_project` deletes all
the tasks but only the comments of the first 1000 tasks returned by
`find(...).to_list(1000)`: the comment on task `t1000` — a task of `p1` —
survives the cascade, contradicting the source's own "Delete all related
data" and the spec's cascade property. -/
theorem delete_project_cascade_misses_comment :
    ((Mutation.delete_project (some userA) "p1" bigStore).map
        (fun o => (o.store.tasks.filter (fun t => t.project_id == "p1"),
          o.store.task_comments)))
      = .ok ([], [orphanComment]) ∧
    bigStore.tasks.any (fun t => t.id == "t1000" && t.project_id == "p1") = true := by
  decide

/-- C5 counterexample: with queue `0` registered on `o1`, an exit of the
subscription loop caused by a non-cancellation error (or by the generator
being closed) terminates with the registry untouched: the channel is still
registered, because the only cleanup sits in `except asyncio.CancelledError`. -/
theorem error_exit_skips_unsubscribe :
    organization_events_exit hubOneSub "o1" 0 .raisedError = .ok hubOneSub ∧
    organization_events_exit hubOneSub "o1" 0 .generatorClosed = .ok hubOneSub ∧
    hubOneSub.connections.lookup "o1" = some [0] := by
  decide

/-- C5 amended: the subscription loop unsubscribes its channel on the
external-cancellation exit path (where the channel really is removed from the
registry), but on every other exit path — an error raised inside the loop or
the generator being closed — the registry is left unchanged and the channel
stays registered. -/
theorem subscription_exit_behavior :
    (∀ (h : Hub) (org : String) (q : Nat) (chans : List Nat),
        h.connections.lookup org = some chans → chans.count q = 1 →
        ∃ h2 chans2, organization_events_exit h org q .cancelled = .ok h2 ∧
          h2.connections.lookup org = some chans2 ∧ q ∉ chans2) ∧
    (∀ (h : Hub) (org : String) (q : Nat) (c : ExitCause), c ≠ .cancelled →
        organization_events_exit h org q c = .ok h) := by
  constructor
  · intro h org q chans hl hc
    obtain ⟨ys, hys, hqy⟩ := removeFirst_count_one hc
    refine ⟨{ h with connections := updAssoc h.connections org (fun _ => ys) }, ys,
      ?_, ?_, hqy⟩
    · simp [organization_events_exit, Hub.unsubscribe, hl, hys]
    · simp [lookup_updAssoc_self, hl]
  · intro h org q c hc
    cases c with
    | cancelled => exact absurd rfl hc
    | raisedError => rfl
    | generatorClosed => rfl

/-- C5 witness: the amended statement applied at a concrete hub: cancellation
removes the channel, an error exit leaves the hub untouched. -/
theorem subscription_exit_witness :
    organization_events_exit hubOneSub "o1" 0 .cancelled = .ok hubOneEmpty ∧
    hubOneEmpty.connections.lookup "o1" = some [] ∧
    organization_events_exit hubOneSub "o1" 0 .raisedError = .ok hubOneSub := by
  obtain ⟨h2, chans2, hexit, hlook, hnot⟩ :=
    subscription_exit_behavior.1 hubOneSub "o1" 0 [0] (by decide) (by decide)
  have h21 : h2 = hubOneEmpty := by
    have h3 := hexit.symm.trans
      (by decide : organization_events_exit hubOneSub "o1" 0 .cancelled = .ok hubOneEmpty)
    injection h3
  exact ⟨h21 ▸ hexit, by decide,
    subscription_exit_behavior.2 hubOneSub "o1" 0 .raisedError (by decide)⟩

/-- C6 counterexample: organization `o1` exists and is owned by user A, yet
user B's `Query.projects` fails with `NotFound` ("Organization not found"),
not `AccessDenied`, and user B's `Query.organization` silently returns no
data rather than raising either error. -/
theorem foreign_org_not_access_denied :
    store1.organizations.any (fun o => o.id == "o1") = true ∧
    Query.projects (some userB) "o1" store1 = .error (.notFound "Organization") ∧
    Query.organization (some userB) "o1" store1 = .ok none := by
  decide

/-- C6 amended: the failure kind distinguishes resolution from ownership for
project references (`create_task`, `update_project`, `delete_project`: a
missing project id yields NotFound "Project not found"; a resolving project
whose organization the caller does not own yields AccessDenied) and for task
references (`update_task`, `delete_task`, `add_comment`: a missing task id
yields NotFound "Task not found"; a fully resolving chain whose organization
the caller does not own yields AccessDenied); but for organization
references it does not: any organization id that does not resolve to an
organization owned by the caller — a missing id and an existing organization
owned by another user alike — yields NotFound "Organization not found" from
`Query.projects` and `Query.project_stats`, and a silent `none` from
`Query.organization`, never AccessDenied. -/
theorem error_kind_mapping :
    (∀ (u : UserRec) (oid : String) (s : Store),
        findOrgOwned s oid u.id = none →
        Query.projects (some u) oid s = .error (.notFound "Organization") ∧
        Query.organization (some u) oid s = .ok none ∧
        Query.project_stats (some u) oid s = .error (.notFound "Organization")) ∧
    (∀ (u : UserRec) (input : TaskInput) (tid now : String) (s : Store),
        s.projects.find? (fun p => p.id == input.project_id) = none →
        Mutation.create_task (some u) input tid now s = .error (.notFound "Project")) ∧
    (∀ (u : UserRec) (input : TaskInput) (tid now : String) (s : Store) (proj : ProjectRec),
        s.projects.find? (fun p => p.id == input.project_id) = some proj →
        findOrgOwned s proj.organization_id u.id = none →
        Mutation.create_task (some u) input tid now s = .error .accessDenied) ∧
    (∀ (u : UserRec) (id : String) (input : ProjectUpdateInput) (s : Store),
        s.projects.find? (fun p => p.id == id) = none →
        Mutation.update_project (some u) id input s = .error (.notFound "Project")) ∧
    (∀ (u : UserRec) (id : String) (input : ProjectUpdateInput) (s : Store)
        (proj : ProjectRec),
        s.projects.find? (fun p => p.id == id) = some proj →
        findOrgOwned s proj.organization_id u.id = none →
        Mutation.update_project (some u) id input s = .error .accessDenied) ∧
    (∀ (u : UserRec) (id : String) (s : Store),
        s.projects.find? (fun p => p.id == id) = none →
        Mutation.delete_project (some u) id s = .error (.notFound "Project")) ∧
    (∀ (u : UserRec) (id : String) (s : Store) (proj : ProjectRec),
        s.projects.find? (fun p => p.id == id) = some proj →
        findOrgOwned s proj.organization_id u.id = none →
        Mutation.delete_project (some u) id s = .error .accessDenied) ∧
    (∀ (u : UserRec) (id : String) (input : TaskUpdateInput) (s : Store),
        s.tasks.find? (fun t => t.id == id) = none →
        Mutation.update_task (some u) id input s = .error (.notFound "Task")) ∧
    (∀ (u : UserRec) (id : String) (input : TaskUpdateInput) (s : Store)
        (task : TaskRec) (proj : ProjectRec),
        s.tasks.find? (fun t => t.id == id) = some task →
        s.projects.find? (fun p => p.id == task.project_id) = some proj →
        findOrgOwned s proj.organization_id u.id = none →
        Mutation.update_task (some u) id input s = .error .accessDenied) ∧
    (∀ (u : UserRec) (id : String) (s : Store),
        s.tasks.find? (fun t => t.id == id) = none →
        Mutation.delete_task (some u) id s = .error (.notFound "Task")) ∧
    (∀ (u : UserRec) (id : String) (s : Store) (task : TaskRec) (proj : ProjectRec),
        s.tasks.find? (fun t => t.id == id) = some task →
        s.projects.find? (fun p => p.id == task.project_id) = some proj →
        findOrgOwned s proj.organization_id u.id = none →
        Mutation.delete_task (some u) id s = .error .accessDenied) ∧
    (∀ (u : UserRec) (input : TaskCommentInput) (cid now : String) (s : Store),
        s.tasks.find? (fun t => t.id == input.task_id) = none →
        Mutation.add_comment (some u) input cid now s = .error (.notFound "Task")) ∧
    (∀ (u : UserRec) (input : TaskCommentInput) (cid now : String) (s : Store)
        (task : TaskRec) (proj : ProjectRec),
        s.tasks.find? (fun t => t.id == input.task_id) = some task →
        s.projects.find? (fun p => p.id == task.project_id) = some proj →
        findOrgOwned s proj.organization_id u.id = none →
        Mutation.add_comment (some u) input cid now s = .error .accessDenied) := by
  refine ⟨?_, ?_, ?_, ?_, ?_, ?_, ?_, ?_, ?_, ?_, ?_, ?_, ?_⟩
  · intro u oid s hf
    exact ⟨by simp [Query.projects, hf], by simp [Query.organization, hf],
      by simp [Query.project_stats, hf]⟩
  · intro u input tid now s hf
    simp [Mutation.create_task, hf]
  · intro u input tid now s proj hf ho
    simp [Mutation.create_task, hf, ho]
  · intro u id input s hf
    simp [Mutation.update_project, hf]
  · intro u id input s proj hf ho
    simp [Mutation.update_project, hf, ho]
  · intro u id s hf
    simp [Mutation.delete_project, hf]
  · intro u id s proj hf ho
    simp [Mutation.delete_project, hf, ho]
  · intro u id input s hf
    simp [Mutation.update_task, hf]
  · intro u id input s task proj hf hp ho
    simp [Mutation.update_task, hf, hp, ho]
  · intro u id s hf
    simp [Mutation.delete_task, hf]
  · intro u id s task proj hf hp ho
    simp [Mutation.delete_task, hf, hp, ho]
  · intro u input cid now s hf
    simp [Mutation.add_comment, hf]
  · intro u input cid now s task proj hf hp ho
    simp [Mutation.add_comment, hf, hp, ho]

/-- C6 witness: the amended statement applied at `store1` — an organization id
owned by another user (query, stats), a bogus project id, a real project of
another user's organization, a bogus task id, and a real task of another
user's organization. -/
theorem error_kind_mapping_witness :
    (Query.projects (some userB) "o1" store1 = .error (.notFound "Organization") ∧
     Query.organization (some userB) "o1" store1 = .ok none ∧
     Query.project_stats (some userB) "o1" store1 = .error (.notFound "Organization")) ∧
    Mutation.create_task (some userB) ⟨"pX", "T", "", "TODO", "", none⟩ "t9" "now" store1
      = .error (.notFound "Project") ∧
    Mutation.create_task (some userB) ⟨"p1", "T", "", "TODO", "", none⟩ "t9" "now" store1
      = .error .accessDenied ∧
    Mutation.update_task (some userB) "tX" ⟨none, none, none, none, none⟩ store1
      = .error (.notFound "Task") ∧
    Mutation.update_task (some userB) "t1" ⟨none, none, some "DONE", none, none⟩ store1
      = .error .accessDenied := by
  exact ⟨error_kind_mapping.1 userB "o1" store1 (by decide),
    error_kind_mapping.2.1 userB ⟨"pX", "T", "", "TODO", "", none⟩ "t9" "now" store1 (by decide),
    error_kind_mapping.2.2.1 userB ⟨"p1", "T", "", "TODO", "", none⟩ "t9" "now" store1 projA
      (by decide) (by decide),
    error_kind_mapping.2.2.2.2.2.2.2.1 userB "tX" ⟨none, none, none, none, none⟩ store1
      (by decide),
    error_kind_mapping.2.2.2.2.2.2.2.2.1 userB "t1" ⟨none, none, some "DONE", none, none⟩
      store1 taskA projA (by decide) (by decide) (by decide)⟩

lemma lookup_mem {α β : Type} [BEq α] [LawfulBEq α] {xs : List (α × β)} {k : α} {v : β}
    (h : xs.lookup k = some v) : (k, v) ∈ xs := by
  induction xs with
  | nil => cases h
  | cons x rest ih =>
    obtain ⟨a, b⟩ := x
    by_cases hak : a = k
    · subst hak
      simp [List.lookup] at h
      subst h
      exact List.mem_cons_self _ _
    · have h1 : (a == k) = false := by simp [hak]
      have h2 : (k == a) = false := by
        simp
        exact fun e => hak e.symm
      simp [List.lookup, h1, h2] at h
      exact List.mem_cons_of_mem _ (ih h)

lemma foldl_putQ (chans : List Nat) (qs : List (Nat × List QEvent)) (q : Nat)
    (l : List QEvent) (ev : QEvent) (hq : qs.lookup q = some l) :
    (chans.foldl (fun a n => updAssoc a n (fun queue => queue ++ [ev])) qs).lookup q
      = some (l ++ List.replicate (chans.count q) ev) := by
  induction chans generalizing qs l with
  | nil => simpa using hq
  | cons n t ih =>
    rw [List.foldl_cons]
    by_cases hn : n = q
    · subst hn
      have h1 : (updAssoc qs n (fun queue => queue ++ [ev])).lookup n = some (l ++ [ev]) := by
        rw [lookup_updAssoc_self, hq]
        rfl
      rw [ih _ _ h1, List.count_cons_self, List.append_assoc, List.singleton_append,
        ← List.replicate_succ]
    · have h1 : (updAssoc qs n (fun queue => queue ++ [ev])).lookup q = some l :=
        (lookup_updAssoc_ne qs n q _ hn).trans hq
      rw [ih _ _ h1, List.count_cons]
      simp [hn]

lemma broadcast_connections (h : Hub) (o t : String) (d : List (String × String)) :
    (h.broadcast o t d).connections = h.connections := by
  unfold Hub.broadcast
  split <;> rfl

lemma broadcast_queue (h : Hub) (O : String) (q : Nat) (l : List QEvent) (e : Event)
    (hreg : registeredOnce h.connections O q = true) (hq : h.queues.lookup q = some l) :
    (h.broadcast e.org_id e.event_type e.data).queues.lookup q
      = some (l ++ (if e.org_id == O then [(e.event_type, e.data)] else [])) := by
  obtain ⟨hreg1, hreg2⟩ := Bool.and_eq_true_iff.mp hreg
  unfold Hub.broadcast
  split
  · next hnone =>
      by_cases ho : e.org_id = O
      · rw [ho] at hnone
        rw [hnone] at hreg1
        cases hreg1
      · have : (e.org_id == O) = false := by
          simp
          exact ho
        simp [this, hq]
  · next chans hsome =>
      by_cases ho : e.org_id = O
      · subst ho
        rw [hsome] at hreg1
        have hcount : chans.count q = 1 := by
          simpa using hreg1
        simp only [foldl_putQ chans h.queues q l _ hq, hcount]
        simp
      · have hmem : (e.org_id, chans) ∈ h.connections := lookup_mem hsome
        have hx := List.all_eq_true.mp hreg2 _ hmem
        have hne : (e.org_id == O) = false := by
          simp
          exact ho
        rw [hne] at hx
        simp only [Bool.false_or] at hx
        have hnotmem : q ∉ chans := by
          intro hm
          have : chans.contains q = true := List.elem_eq_true_of_mem hm
          rw [this] at hx
          cases hx
        have hcount : chans.count q = 0 := List.count_eq_zero.mpr hnotmem
        simp only [foldl_putQ chans h.queues q l _ hq, hcount, hne]
        simp

lemma broadcastAll_queue (evs : List Event) (h : Hub) (O : String) (q : Nat)
    (l : List QEvent) (hreg : registeredOnce h.connections O q = true)
    (hq : h.queues.lookup q = some l) :
    (broadcastAll h evs).connections = h.connections ∧
    (broadcastAll h evs).queues.lookup q
      = some (l ++ (evs.filter (fun e => e.org_id == O)).map
          (fun e => (e.event_type, e.data))) := by
  induction evs generalizing h l with
  | nil => exact ⟨rfl, by simpa using hq⟩
  | cons e t ih =>
    have hc := broadcast_connections h e.org_id e.event_type e.data
    have hq2 := broadcast_queue h O q l e hreg hq
    have hreg2 : registeredOnce (h.broadcast e.org_id e.event_type e.data).connections O q
        = true := by
      rw [hc]
      exact hreg
    obtain ⟨ihc, ihq⟩ := ih (h.broadcast e.org_id e.event_type e.data) _ hreg2 hq2
    have hstep : broadcastAll h (e :: t)
        = broadcastAll (h.broadcast e.org_id e.event_type e.data) t := rfl
    refine ⟨by rw [hstep, ihc, hc], ?_⟩
    rw [hstep, ihq]
    by_cases ho : (e.org_id == O) = true
    · simp [List.filter_cons, ho, List.append_assoc]
    · have ho2 : (e.org_id == O) = false := by
        cases hv : (e.org_id == O)
        · rfl
        · exact absurd hv ho
      simp [List.filter_cons, ho2]

lemma run_queue (cs : List MCall) (s : Store) (h : Hub) (O : String) (q : Nat)
    (l : List QEvent) (hreg : registeredOnce h.connections O q = true)
    (hq : h.queues.lookup q = some l) :
    (run s h cs).2.queues.lookup q
      = some (l ++ ((publishedEvents s cs).filter (fun e => e.org_id == O)).map
          (fun e => (e.event_type, e.data))) ∧
    (run s h cs).2.connections = h.connections := by
  induction cs generalizing s h l with
  | nil => exact ⟨by simpa [run, publishedEvents] using hq, rfl⟩
  | cons c t ih =>
    have hrun : run s h (c :: t) = run (step (s, h) c).1 (step (s, h) c).2 t := rfl
    cases hm : mutResult s c with
    | error err =>
      have hstep : step (s, h) c = (s, h) := by simp [step, hm]
      have hpub : publishedEvents s (c :: t) = publishedEvents s t := by
        simp [publishedEvents, hm]
      rw [hrun, hstep, hpub]
      exact ih s h l hreg hq
    | ok r =>
      obtain ⟨s2, evs⟩ := r
      have hstep : step (s, h) c = (s2, broadcastAll h evs) := by simp [step, hm]
      have hpub : publishedEvents s (c :: t) = evs ++ publishedEvents s2 t := by
        simp [publishedEvents, hm]
      obtain ⟨hbc, hbq⟩ := broadcastAll_queue evs h O q l hreg hq
      have hreg2 : registeredOnce (broadcastAll h evs).connections O q = true := by
        rw [hbc]
        exact hreg
      obtain ⟨ihq, ihc⟩ := ih s2 (broadcastAll h evs) _ hreg2 hbq
      rw [hrun, hstep, hpub]
      refine ⟨?_, by rw [ihc, hbc]⟩
      rw [ihq, List.filter_append, List.map_append, List.append_assoc]

/-- C3 counterexample: a successful `delete_comment` (user A deleting their
own comment `c1`) broadcasts no event at all, so a subscriber on the
comment's organization receives zero events for this mutation, not exactly
one. -/
theorem delete_comment_publishes_no_event :
    (mutResult store1 (.deleteComment (some userA) "c1")).map (fun r => r.2) = .ok [] := by
  decide

/-- C3 amended: every successful project or task mutation and every
successful `add_comment` publishes exactly one event, scoped to the
organization id its ownership chain resolves to; a subscriber whose channel
is registered exactly once on organization O receives exactly the events
published for O, in publish order, and zero events from mutations resolving
to other organizations; a successful `delete_comment`, however, publishes no
event at all. -/
theorem mutation_event_delivery :
    (∀ (h : Hub) (O : String) (q : Nat) (l : List QEvent) (s : Store) (cs : List MCall),
        registeredOnce h.connections O q = true → h.queues.lookup q = some l →
        (run s h cs).2.queues.lookup q
          = some (l ++ ((publishedEvents s cs).filter (fun e => e.org_id == O)).map
              (fun e => (e.event_type, e.data)))) ∧
    (∀ (s : Store) (c : MCall) (r : Store × List Event),
        mutResult s c = .ok r → isDeleteComment c = false →
        r.2.length = 1 ∧ r.2.map (fun e => e.org_id) = (resolvedOrg s c).toList) ∧
    (∀ (s : Store) (c : MCall) (r : Store × List Event),
        mutResult s c = .ok r → isDeleteComment c = true → r.2 = []) := by
  refine ⟨?_, ?_, ?_⟩
  · intro h O q l s cs hreg hq
    exact (run_queue cs s h O q l hreg hq).1
  · intro s c r hok hnc
    cases c with
    | deleteComment u id => cases hnc
    | createProject u i pid now =>
      simp only [mutResult] at hok
      cases hX : Mutation.create_project u i pid now s with
      | error e =>
        rw [hX] at hok
        simp only [Except.map] at hok
        cases hok
      | ok out =>
        rw [hX] at hok
        simp only [Except.map] at hok
        cases hok
        unfold Mutation.create_project at hX
        repeat' split at hX
        all_goals cases hX
        all_goals exact ⟨rfl, by simp_all [resolvedOrg]⟩
    | updateProject u id i =>
      simp only [mutResult] at hok
      cases hX : Mutation.update_project u id i s with
      | error e =>
        rw [hX] at hok
        simp only [Except.map] at hok
        cases hok
      | ok out =>
        rw [hX] at hok
        simp only [Except.map] at hok
        cases hok
        unfold Mutation.update_project at hX
        repeat' split at hX
        all_goals cases hX
        all_goals exact ⟨rfl, by simp_all [resolvedOrg]⟩
    | deleteProject u id =>
      simp only [mutResult] at hok
      cases hX : Mutation.delete_project u id s with
      | error e =>
        rw [hX] at hok
        simp only [Except.map] at hok
        cases hok
      | ok out =>
        rw [hX] at hok
        simp only [Except.map] at hok
        cases hok
        unfold Mutation.delete_project at hX
        repeat' split at hX
        all_goals cases hX
        all_goals exact ⟨rfl, by simp_all [resolvedOrg]⟩
    | createTask u i tid now =>
      simp only [mutResult] at hok
      cases hX : Mutation.create_task u i tid now s with
      | error e =>
        rw [hX] at hok
        simp only [Except.map] at hok
        cases hok
      | ok out =>
        rw [hX] at hok
        simp only [Except.map] at hok
        cases hok
        unfold Mutation.create_task at hX
        repeat' split at hX
        all_goals cases hX
        all_goals exact ⟨rfl, by simp_all [resolvedOrg]⟩
    | updateTask u id i =>
      simp only [mutResult] at hok
      cases hX : Mutation.update_task u id i s with
      | error e =>
        rw [hX] at hok
        simp only [Except.map] at hok
        cases hok
      | ok out =>
        rw [hX] at hok
        simp only [Except.map] at hok
        cases hok
        unfold Mutation.update_task at hX
        repeat' split at hX
        all_goals cases hX
        all_goals exact ⟨rfl, by simp_all [resolvedOrg]⟩
    | deleteTask u id =>
      simp only [mutResult] at hok
      cases hX : Mutation.delete_task u id s with
      | error e =>
        rw [hX] at hok
        simp only [Except.map] at hok
        cases hok
      | ok out =>
        rw [hX] at hok
        simp only [Except.map] at hok
        cases hok
        unfold Mutation.delete_task at hX
        repeat' split at hX
        all_goals cases hX
        all_goals exact ⟨rfl, by simp_all [resolvedOrg]⟩
    | addComment u i cid now =>
      simp only [mutResult] at hok
      cases hX : Mutation.add_comment u i cid now s with
      | error e =>
        rw [hX] at hok
        simp only [Except.map] at hok
        cases hok
      | ok out =>
        rw [hX] at hok
        simp only [Except.map] at hok
        cases hok
        unfold Mutation.add_comment at hX
        repeat' split at hX
        all_goals cases hX
        all_goals exact ⟨rfl, by simp_all [resolvedOrg]⟩
  · intro s c r hok hdc
    cases c with
    | createProject u i pid now => cases hdc
    | updateProject u id i => cases hdc
    | deleteProject u id => cases hdc
    | createTask u i tid now => cases hdc
    | updateTask u id i => cases hdc
    | deleteTask u id => cases hdc
    | addComment u i cid now => cases hdc
    | deleteComment u id =>
      simp only [mutResult] at hok
      cases hX : Mutation.delete_comment u id s with
      | error e =>
        rw [hX] at hok
        simp only [Except.map] at hok
        cases hok
      | ok out =>
        rw [hX] at hok
        simp only [Except.map] at hok
        cases hok
        unfold Mutation.delete_comment at hX
        repeat' split at hX
        all_goals cases hX
        rfl

/-- A hub with subscriber `0` on `o1` and subscriber `1` on `o2`. -/
def hub2 : Hub := ⟨[("o1", [0]), ("o2", [1])], [(0, []), (1, [])], 2⟩

/-- A call list: one project creation on `o1`, one comment deletion. -/
def cs3 : List MCall :=
  [.createProject (some userA) ⟨"o1", "P2", "", "ACTIVE", none⟩ "p9" "now",
   .deleteComment (some userA) "c1"]

/-- C3 witness: running `cs3` delivers exactly one event, in order, to the
subscriber on `o1`, and none to the subscriber on `o2`. -/
theorem mutation_event_delivery_witness :
    (run store1 hub2 cs3).2.queues.lookup 0
      = some [("PROJECT_CREATED", [("id", "p9")])] ∧
    (run store1 hub2 cs3).2.queues.lookup 1 = some [] := by
  constructor
  · exact (mutation_event_delivery.1 hub2 "o1" 0 [] store1 cs3 (by decide)
      (by decide)).trans (by decide)
  · exact (mutation_event_delivery.1 hub2 "o2" 1 [] store1 cs3 (by decide)
      (by decide)).trans (by decide)

lemma computeStats_rate (oid : String) (s : Store) :
    (computeStats oid s).completion_rate
      = if 0 < (computeStats oid s).total_tasks then
          pyRound1 (pyMul (pyDiv (computeStats oid s).completed_tasks
            (computeStats oid s).total_tasks) 100)
        else 0 := rfl

/-- The `i`-th of the sixteen tasks of `p1`, the first one DONE. -/
def mkTask16 (i : Nat) : TaskRec :=
  ⟨"t" ++ toString i, "p1", "T", "", if i = 0 then "DONE" else "TODO", "", none,
   "2024-01-01T00:00:00+00:00"⟩

/-- A store where `o1`'s project `p1` has 16 tasks, exactly one DONE. -/
def store16 : Store := ⟨[orgA], [projA], (List.range 16).map mkTask16, []⟩

unseal Rat.mul Rat.inv Rat.add Rat.sub in
/-- C8 counterexample: with 1 of 16 tasks done the exact percentage is 6.25,
a decimal tie.  The program divides, multiplies and rounds in binary64:
`round(6.25, 1)` rounds half-to-even to 6.2 and returns the double nearest
6.2 (6980579422424269 / 2^50 ≈ 6.2000000000000002).  That value differs from
"100 × completed/total rounded to one decimal place" on exact rationals —
6.3 under round-half-up, and even from the exact 6.2 = 31/5 — so the claimed
equality with the rounded rational is false of the program. -/
theorem completion_rate_not_exact_rounding :
    Query.project_stats (some userA) "o1" store16 = .ok (computeStats "o1" store16) ∧
    (computeStats "o1" store16).total_tasks = 16 ∧
    (computeStats "o1" store16).completed_tasks = 1 ∧
    (computeStats "o1" store16).completion_rate = 6980579422424269 / 1125899906842624 ∧
    specRound1 ((1 : ℚ) / 16 * 100) = 63 / 10 ∧
    (computeStats "o1" store16).completion_rate ≠ 63 / 10 ∧
    (computeStats "o1" store16).completion_rate ≠ 62 / 10 := by
  decide

/-- C8 amended: for an organization owned by the caller `project_stats`
succeeds, and the completion rate is the source's binary double-precision
pipeline — the correctly rounded double of `completed/total`, times 100
(correctly rounded), rounded to one decimal place by half-even decimal
rounding of that double and conversion back to the nearest double — rather
than the exactly rounded rational; it is exactly `0` (no error, no undefined
value) when `total_tasks = 0`, and an organization with zero projects yields
all-zero counts and rate exactly `0`. -/
theorem project_stats_float_spec :
    ∀ (u : UserRec) (oid : String) (s : Store) (org : OrgRec),
      findOrgOwned s oid u.id = some org →
      ∃ stats, Query.project_stats (some u) oid s = .ok stats ∧
        (stats.total_tasks = 0 → stats.completion_rate = 0) ∧
        (0 < stats.total_tasks →
          stats.completion_rate
            = pyRound1 (pyMul (pyDiv stats.completed_tasks stats.total_tasks) 100)) ∧
        ((∀ p ∈ s.projects, p.organization_id ≠ oid) →
          stats.total_projects = 0 ∧ stats.active_projects = 0 ∧
          stats.completed_projects = 0 ∧ stats.on_hold_projects = 0 ∧
          stats.total_tasks = 0 ∧ stats.completed_tasks = 0 ∧
          stats.completion_rate = 0) := by
  intro u oid s org horg
  refine ⟨computeStats oid s, ?_, ?_, ?_, ?_⟩
  · simp [Query.project_stats, horg]
  · intro h0
    rw [computeStats_rate, h0]
    simp
  · intro hpos
    rw [computeStats_rate, if_pos hpos]
  · intro hnone
    have hfe : s.projects.filter (fun p => p.organization_id == oid) = [] := by
      rw [List.filter_eq_nil_iff]
      intro p hp
      simpa using hnone p hp
    have hfa : s.projects.filter
        (fun p => p.organization_id == oid && p.status == "ACTIVE") = [] := by
      rw [List.filter_eq_nil_iff]
      intro p hp
      simp [hnone p hp]
    have hfc : s.projects.filter
        (fun p => p.organization_id == oid && p.status == "COMPLETED") = [] := by
      rw [List.filter_eq_nil_iff]
      intro p hp
      simp [hnone p hp]
    have hfh : s.projects.filter
        (fun p => p.organization_id == oid && p.status == "ON_HOLD") = [] := by
      rw [List.filter_eq_nil_iff]
      intro p hp
      simp [hnone p hp]
    have htt : statsTotalTasks oid s = 0 := by
      simp [statsTotalTasks, statsProjectIds, hfe]
    have htc : statsCompletedTasks oid s = 0 := by
      simp [statsCompletedTasks, statsProjectIds, hfe]
    refine ⟨?_, ?_, ?_, ?_, htt, htc, ?_⟩
    · simp [computeStats, hfe]
    · simp [computeStats, hfa]
    · simp [computeStats, hfc]
    · simp [computeStats, hfh]
    · rw [computeStats_rate]
      have h4 : (computeStats oid s).total_tasks = 0 := htt
      rw [h4]
      simp

/-- A store holding only organization `o1`, with zero projects. -/
def storeNoProj : Store := ⟨[orgA], [], [], []⟩

/-- C8 witness: an organization with zero projects yields all-zero counts and
a completion rate of exactly `0`, with no error. -/
theorem project_stats_float_spec_witness :
    Query.project_stats (some userA) "o1" storeNoProj
      = .ok (computeStats "o1" storeNoProj) ∧
    (computeStats "o1" storeNoProj).total_projects = 0 ∧
    (computeStats "o1" storeNoProj).total_tasks = 0 ∧
    (computeStats "o1" storeNoProj).completion_rate = 0 := by
  obtain ⟨stats, hok, h0, hpos, hzero⟩ :=
    project_stats_float_spec userA "o1" storeNoProj orgA (by decide)
  obtain ⟨t1, t2, t3, t4, t5, t6, t7⟩ := hzero (by simp [storeNoProj])
  have hs : stats = computeStats "o1" storeNoProj := by
    have h3 := hok.symm.trans
      (show Query.project_stats (some userA) "o1" storeNoProj
        = .ok (computeStats "o1" storeNoProj) from rfl)
    injection h3
  subst hs
  exact ⟨hok, t1, t5, t7⟩

lemma find?_updateFirstBy {α : Type} (p : α → Bool) (f : α → α) (xs : List α)
    (hpf : ∀ x, p x = true → p (f x) = true) :
    (updateFirstBy p f xs).find? p = (xs.find? p).map f := by
  induction xs with
  | nil => rfl
  | cons x rest ih =>
    by_cases hx : p x = true
    · simp only [updateFirstBy, hx, if_true]
      rw [List.find?_cons_of_pos _ (hpf x hx), List.find?_cons_of_pos _ hx]
      rfl
    · have hx2 : p x = false := by
        cases hv : p x
        · rfl
        · exact absurd hv hx
      simp only [updateFirstBy, hx2, Bool.false_eq_true, if_false]
      rw [List.find?_cons_of_neg _ (by simp [hx2]), List.find?_cons_of_neg _ (by simp [hx2]),
        ih]

lemma isSome_false_eq_none {α : Type} {o : Option α} (h : o.isSome = false) :
    o = none := by
  cases o
  · rfl
  · cases h

lemma taskUpdateNonempty_false {input : TaskUpdateInput}
    (h : taskUpdateNonempty input = false) :
    input.title = none ∧ input.description = none ∧ input.status = none ∧
      input.assignee_email = none ∧ input.due_date = none := by
  simp only [taskUpdateNonempty, Bool.or_eq_false_iff] at h
  exact ⟨isSome_false_eq_none h.1.1.1.1, isSome_false_eq_none h.1.1.1.2,
    isSome_false_eq_none h.1.1.2, isSome_false_eq_none h.1.2,
    isSome_false_eq_none h.2⟩

/-- C9: a successful `update_task` leaves `project_id` and `created_at`
untouched, leaves every field whose update input is absent at its previously
stored value, sets `status` to the supplied value when present, and stores
the returned record — so an update supplying only `status` changes only the
stored status. -/
theorem update_task_frame (u : UserRec) (id : String) (input : TaskUpdateInput)
    (s : Store) (out : MutOut TaskRec)
    (h : Mutation.update_task (some u) id input s = .ok out) :
    ∃ t, s.tasks.find? (fun x => x.id == id) = some t ∧
      out.result.project_id = t.project_id ∧
      out.result.created_at = t.created_at ∧
      (input.title = none → out.result.title = t.title) ∧
      (input.description = none → out.result.description = t.description) ∧
      (input.status = none → out.result.status = t.status) ∧
      (∀ v, input.status = some v → out.result.status = v) ∧
      (input.assignee_email = none → out.result.assignee_email = t.assignee_email) ∧
      (input.due_date = none → out.result.due_date = t.due_date) ∧
      out.store.tasks.find? (fun x => x.id == id) = some out.result := by
  unfold Mutation.update_task at h
  split at h
  · cases h
  next u2 =>
    split at h
    · cases h
    next task htask =>
      split at h
      · cases h
      next proj hproj =>
        split at h
        · cases h
        next o ho =>
          split at h
          · cases h
          next updated hupd =>
            cases h
            refine ⟨task, htask, ?_⟩
            by_cases hne : taskUpdateNonempty input = true
            · have hupd2 := hupd
              unfold taskUpdateStore at hupd2
              rw [if_pos hne] at hupd2
              rw [find?_updateFirstBy (fun x => x.id == id) (applyTaskUpdate input) s.tasks
                (fun x hx => by simpa [applyTaskUpdate] using hx), htask] at hupd2
              simp only [Option.map_some'] at hupd2
              injection hupd2 with heq
              subst heq
              refine ⟨rfl, rfl, ?_, ?_, ?_, ?_, ?_, ?_, hupd⟩
              · intro hn
                simp [applyTaskUpdate, hn]
              · intro hn
                simp [applyTaskUpdate, hn]
              · intro hn
                simp [applyTaskUpdate, hn]
              · intro v hv
                simp [applyTaskUpdate, hv]
              · intro hn
                simp [applyTaskUpdate, hn]
              · intro hn
                simp [applyTaskUpdate, hn]
            · have hne2 : taskUpdateNonempty input = false := by
                cases hv : taskUpdateNonempty input
                · rfl
                · exact absurd hv hne
              obtain ⟨e1, e2, e3, e4, e5⟩ := taskUpdateNonempty_false hne2
              have hupd2 := hupd
              unfold taskUpdateStore at hupd2
              rw [if_neg hne, htask] at hupd2
              injection hupd2 with heq
              subst heq
              refine ⟨rfl, rfl, fun _ => rfl, fun _ => rfl, fun _ => rfl, ?_,
                fun _ => rfl, fun _ => rfl, hupd⟩
              intro v hv
              rw [e3] at hv
              cases hv

/-- Task `t1` after its status is set to `DONE`. -/
def taskA_done : TaskRec := ⟨"t1", "p1", "Fix", "", "DONE", "", none, "2024-01-01T00:00:00+00:00"⟩

/-- The outcome of updating `t1` with only `status = "DONE"` supplied. -/
def utOutDone : MutOut TaskRec :=
  ⟨⟨[orgA], [projA], [taskA_done], [commentA]⟩,
   [⟨"o1", "TASK_UPDATED", [("id", "t1"), ("project_id", "p1")]⟩],
   [.updateOne "tasks"], taskA_done⟩

/-- C9 witness: updating task `t1` with only `status = "DONE"` supplied
keeps title and assignee and changes the status. -/
theorem update_task_frame_witness :
    Mutation.update_task (some userA) "t1" ⟨none, none, some "DONE", none, none⟩ store1
      = .ok utOutDone ∧
    utOutDone.result.status = "DONE" ∧ utOutDone.result.title = taskA.title ∧
    utOutDone.result.assignee_email = taskA.assignee_email := by
  obtain ⟨t, ht, hpid, hca, htit, hdesc, hsn, hss, hae, hdd, hst⟩ :=
    update_task_frame userA "t1" ⟨none, none, some "DONE", none, none⟩ store1 utOutDone
      (by decide)
  have h1 : t = taskA := by
    have h2 := ht.symm.trans
      (show store1.tasks.find? (fun x => x.id == "t1") = some taskA by decide)
    injection h2
  exact ⟨by decide, hss "DONE" rfl, h1 ▸ htit rfl, h1 ▸ hae rfl⟩

/-- C10: an `update_project` / `update_task` whose input has every field
omitted issues no store write, leaves the store unchanged, returns the stored
entity as-is — and still publishes one `PROJECT_UPDATED` / `TASK_UPDATED`
event to the entity's organization. -/
theorem empty_update_no_write :
    (∀ (u : UserRec) (id : String) (s : Store) (out : MutOut ProjectOut),
        Mutation.update_project (some u) id ⟨none, none, none, none⟩ s = .ok out →
        out.writes = [] ∧ out.store = s ∧
        ∃ p, s.projects.find? (fun x => x.id == id) = some p ∧
          out.result.record = p ∧
          out.events = [⟨p.organization_id, "PROJECT_UPDATED", [("id", id)]⟩]) ∧
    (∀ (u : UserRec) (id : String) (s : Store) (out : MutOut TaskRec),
        Mutation.update_task (some u) id ⟨none, none, none, none, none⟩ s = .ok out →
        out.writes = [] ∧ out.store = s ∧
        ∃ t pj, s.tasks.find? (fun x => x.id == id) = some t ∧ out.result = t ∧
          s.projects.find? (fun x => x.id == t.project_id) = some pj ∧
          out.events = [⟨pj.organization_id, "TASK_UPDATED",
            [("id", id), ("project_id", t.project_id)]⟩]) := by
  constructor
  · intro u id s out h
    unfold Mutation.update_project at h
    split at h
    · cases h
    next u2 =>
      split at h
      · cases h
      next proj hproj =>
        split at h
        · cases h
        next o ho =>
          split at h
          · cases h
          next updated hupd =>
            cases h
            have hupd2 := hupd
            rw [show projectUpdateStore id ⟨none, none, none, none⟩ s = s from rfl,
              hproj] at hupd2
            injection hupd2 with heq
            subst heq
            exact ⟨rfl, rfl, ⟨_, hproj, rfl, rfl⟩⟩
  · intro u id s out h
    unfold Mutation.update_task at h
    split at h
    · cases h
    next u2 =>
      split at h
      · cases h
      next task htask =>
        split at h
        · cases h
        next proj hproj =>
          split at h
          · cases h
          next o ho =>
            split at h
            · cases h
            next updated hupd =>
              cases h
              have hupd2 := hupd
              rw [show taskUpdateStore id ⟨none, none, none, none, none⟩ s = s from rfl,
                htask] at hupd2
              injection hupd2 with heq
              subst heq
              exact ⟨rfl, rfl, ⟨_, _, htask, rfl, hproj, rfl⟩⟩

/-- The outcome of an all-fields-omitted `update_project` on `p1`. -/
def upOutEmpty : MutOut ProjectOut :=
  ⟨store1, [⟨"o1", "PROJECT_UPDATED", [("id", "p1")]⟩], [], ⟨projA, 1, 0⟩⟩

/-- The outcome of an all-fields-omitted `update_task` on `t1`. -/
def utOutEmpty : MutOut TaskRec :=
  ⟨store1, [⟨"o1", "TASK_UPDATED", [("id", "t1"), ("project_id", "p1")]⟩], [], taskA⟩

/-- C10 witness: the statement applied to `p1` and `t1` of `store1`: no
writes, unchanged store, one UPDATED event each. -/
theorem empty_update_no_write_witness :
    (Mutation.update_project (some userA) "p1" ⟨none, none, none, none⟩ store1
      = .ok upOutEmpty ∧ upOutEmpty.writes = [] ∧ upOutEmpty.store = store1) ∧
    (Mutation.update_task (some userA) "t1" ⟨none, none, none, none, none⟩ store1
      = .ok utOutEmpty ∧ utOutEmpty.writes = [] ∧ utOutEmpty.store = store1) := by
  constructor
  · obtain ⟨hw, hs, p, hp, hr, he⟩ :=
      empty_update_no_write.1 userA "p1" store1 upOutEmpty (by decide)
    exact ⟨by decide, hw, hs⟩
  · obtain ⟨hw, hs, t, pj, ht, hr, hp, he⟩ :=
      empty_update_no_write.2 userA "t1" store1 utOutEmpty (by decide)
    exact ⟨by decide, hw, hs⟩

end Minipm
